import Mathlib

/-!
Shallow embedding of the waste-management regression pipeline
(`src/WMS4/PY/Linear.py` and `src/WMS4/PY/app.py`).

Both scripts run the same cleaning/merging/feature-preparation/split
pipeline over two CSV-loaded tables; this file embeds that pipeline:
  * a raw table row (`RawRow`) with the columns the pipeline touches,
    numeric cells as `Option ℚ` (a `none` is a pandas NaN),
  * date parsing with the `errors='coerce'` policy (an unparseable
    string becomes a null marker, modelled by a `parse` function
    returning `Option Nat`),
  * dropping rows whose `generated_date` or `predicted_waste_next_day`
    is null (`keptRows`),
  * per-dataset categorical encoding `astype('category').cat.codes`
    (sorted distinct non-null values get dense codes `0,1,...`; a null
    cell gets code `-1`),
  * row-wise concatenation with index reset (`mergedData`),
  * selection of the six feature columns and the target
    (`featureX`, `targetY`),
  * mean imputation `X.fillna(X.mean())` (`fillnaX`): each null cell is
    replaced by the mean of the non-null cells of its own column,
    computed over all merged rows; a column with no non-null cell keeps
    its nulls (filling with NaN is a no-op),
  * the seeded deterministic 80/20 train/test split with
    `random_state=42` (`splitData`): a pseudorandom permutation of the
    row indices, the first `⌈n/5⌉` shuffled indices forming the test
    set, the rest the training set,
  * mean squared error of test predictions (`mse`).
-/

namespace WMS

/-- One raw row of an input CSV table, restricted to the columns the
pipeline reads.  `cat2` is the dataset-specific second categorical
column: `recyclable` for the general-waste table, `hazardous` for the
hazardous-waste table.  `none` models a missing cell (pandas NaN). -/
structure RawRow where
  generated_date : Option String
  weight_kg : Option ℚ
  cost_per_kg : Option ℚ
  disposal_method : Option String
  cat2 : Option String
  storage_duration_days : Option ℚ
  predicted_waste_next_day : Option ℚ
  deriving DecidableEq, Repr

/-- A cleaned row: the date parsed to a timestamp, the target known to
be present, both categorical columns encoded as integer codes. -/
structure CleanRow where
  generated_date : Nat
  weight_kg : Option ℚ
  cost_per_kg : Option ℚ
  disposal_method : Int
  cat2 : Int
  storage_duration_days : Option ℚ
  predicted_waste_next_day : ℚ
  deriving DecidableEq, Repr

/-- A row of the merged table `pd.concat([gdata, hdata], ignore_index=True)`:
both `recyclable` and `hazardous` columns exist; the one absent from the
row's source table is null. -/
structure MergedRow where
  generated_date : Nat
  weight_kg : Option ℚ
  cost_per_kg : Option ℚ
  disposal_method : Int
  recyclable : Option Int
  hazardous : Option Int
  storage_duration_days : Option ℚ
  predicted_waste_next_day : ℚ
  deriving DecidableEq, Repr

/-- A row of the feature matrix `X = merged_data[features]`: the six
selected feature columns, every cell an optional rational. -/
structure XRow where
  weight_kg : Option ℚ
  cost_per_kg : Option ℚ
  disposal_method : Option ℚ
  recyclable : Option ℚ
  hazardous : Option ℚ
  storage_duration_days : Option ℚ
  deriving DecidableEq, Repr

/-- The feature list of the model, exactly as written in the source:
`features = ['weight_kg', 'cost_per_kg', 'disposal_method', 'recyclable',
'hazardous', 'storage_duration_days']`. -/
def features : List String :=
  ["weight_kg", "cost_per_kg", "disposal_method", "recyclable",
   "hazardous", "storage_duration_days"]

/-- The parsed date of a raw row under a given date parser: a missing
cell stays null, an unparseable string becomes null
(`pd.to_datetime(col, errors='coerce')`). -/
def parsedDate (parse : String → Option Nat) (r : RawRow) : Option Nat :=
  r.generated_date.bind parse

/-- Rows surviving the two `dropna` steps: the parsed `generated_date`
and the `predicted_waste_next_day` target must both be non-null. -/
def keptRows (parse : String → Option Nat) (rows : List RawRow) : List RawRow :=
  rows.filter fun r =>
    (parsedDate parse r).isSome && r.predicted_waste_next_day.isSome

/-- Lexicographic comparison of character lists by code point. -/
def charsLe : List Char → List Char → Bool
  | [], _ => true
  | _ :: _, [] => false
  | a :: as, b :: bs =>
    if a.toNat < b.toNat then true
    else if b.toNat < a.toNat then false
    else charsLe as bs

/-- Lexicographic string comparison by code point, as Python compares
the category labels. -/
def strLe (a b : String) : Bool := charsLe a.data b.data

/-- Insert a string into a (sorted) list, keeping lexicographic order. -/
def insertStr (s : String) : List String → List String
  | [] => [s]
  | t :: ts => if strLe s t then s :: t :: ts else t :: insertStr s ts

/-- Sort a list of strings lexicographically (insertion sort). -/
def sortStrs (l : List String) : List String := l.foldr insertStr []

/-- The categories pandas assigns to a string column: the distinct
non-null values in sorted order. -/
def categories (col : List (Option String)) : List String :=
  sortStrs (col.filterMap id).dedup

/-- `astype('category').cat.codes` for one cell of a column: a null
cell gets code `-1`; a value gets its index among the column's sorted
distinct values.  The mapping depends only on the column it is applied
to, hence is derived independently per dataset. -/
def catCode (col : List (Option String)) : Option String → Int
  | none => -1
  | some s => ((categories col).indexOf s : Int)

/-- The full cleaning step applied to one input table: drop rows with a
null parsed date or null target, then encode the two categorical
columns over the surviving rows. -/
def cleanDataset (parse : String → Option Nat) (rows : List RawRow) :
    List CleanRow :=
  let kept := keptRows parse rows
  let dmCol := kept.map (·.disposal_method)
  let c2Col := kept.map (·.cat2)
  kept.map fun r =>
    { generated_date := (parsedDate parse r).getD 0
      weight_kg := r.weight_kg
      cost_per_kg := r.cost_per_kg
      disposal_method := catCode dmCol r.disposal_method
      cat2 := catCode c2Col r.cat2
      storage_duration_days := r.storage_duration_days
      predicted_waste_next_day := r.predicted_waste_next_day.getD 0 }

/-- Lift a cleaned general-waste row into the merged table: its `cat2`
code is the `recyclable` column; it has no `hazardous` column. -/
def mrowG (c : CleanRow) : MergedRow :=
  { generated_date := c.generated_date
    weight_kg := c.weight_kg
    cost_per_kg := c.cost_per_kg
    disposal_method := c.disposal_method
    recyclable := some c.cat2
    hazardous := none
    storage_duration_days := c.storage_duration_days
    predicted_waste_next_day := c.predicted_waste_next_day }

/-- Lift a cleaned hazardous-waste row into the merged table: its
`cat2` code is the `hazardous` column; it has no `recyclable` column. -/
def mrowH (c : CleanRow) : MergedRow :=
  { generated_date := c.generated_date
    weight_kg := c.weight_kg
    cost_per_kg := c.cost_per_kg
    disposal_method := c.disposal_method
    recyclable := none
    hazardous := some c.cat2
    storage_duration_days := c.storage_duration_days
    predicted_waste_next_day := c.predicted_waste_next_day }

/-- `merged_data = pd.concat([gdata, hdata], ignore_index=True)`:
the cleaned general rows, in order, followed by the cleaned hazardous
rows, in order. -/
def mergedData (parse : String → Option Nat) (g h : List RawRow) :
    List MergedRow :=
  (cleanDataset parse g).map mrowG ++ (cleanDataset parse h).map mrowH

/-- Select the six feature columns out of one merged row
(`X = merged_data[features]`). -/
def toXRow (m : MergedRow) : XRow :=
  { weight_kg := m.weight_kg
    cost_per_kg := m.cost_per_kg
    disposal_method := some (m.disposal_method : ℚ)
    recyclable := m.recyclable.map (fun i => (i : ℚ))
    hazardous := m.hazardous.map (fun i => (i : ℚ))
    storage_duration_days := m.storage_duration_days }

/-- The feature matrix of a merged table. -/
def featureX (merged : List MergedRow) : List XRow := merged.map toXRow

/-- The target vector `y = merged_data[target]`. -/
def targetY (merged : List MergedRow) : List ℚ :=
  merged.map (·.predicted_waste_next_day)

/-- The mean of a column's non-null cells, `none` when the column has
no non-null cell (pandas `mean()` of an all-NaN column is NaN). -/
def colMean (col : List (Option ℚ)) : Option ℚ :=
  let vs := col.filterMap id
  if vs = [] then none else some (vs.sum / (vs.length : ℚ))

/-- Fill one cell with a column mean: a non-null cell is unchanged, a
null cell becomes the mean; when the mean itself is null (all-NaN
column) the cell stays null, as `fillna` with NaN is a no-op. -/
def fillCell (m : Option ℚ) : Option ℚ → Option ℚ
  | some v => some v
  | none => m

/-- `fillna` of a single column with that column's own mean. -/
def fillnaCol (col : List (Option ℚ)) : List (Option ℚ) :=
  col.map (fillCell (colMean col))

/-- `X = X.fillna(X.mean())`: every null cell of every feature column
is filled with the mean of that column's non-null cells, the means
being computed over all rows of `X` (after the merge, before the
train/test split). -/
def fillnaX (X : List XRow) : List XRow :=
  let mW := colMean (X.map (·.weight_kg))
  let mC := colMean (X.map (·.cost_per_kg))
  let mD := colMean (X.map (·.disposal_method))
  let mR := colMean (X.map (·.recyclable))
  let mH := colMean (X.map (·.hazardous))
  let mS := colMean (X.map (·.storage_duration_days))
  X.map fun r =>
    { weight_kg := fillCell mW r.weight_kg
      cost_per_kg := fillCell mC r.cost_per_kg
      disposal_method := fillCell mD r.disposal_method
      recyclable := fillCell mR r.recyclable
      hazardous := fillCell mH r.hazardous
      storage_duration_days := fillCell mS r.storage_duration_days }

/-- One step of a 64-bit linear congruential generator, the
pseudorandom stream a fixed `random_state` seeds. -/
def lcgNext (s : Nat) : Nat :=
  (6364136223846793005 * s + 1442695040888963407) % (2 ^ 64)

/-- Seeded Fisher–Yates-style shuffle: repeatedly pick the element at a
pseudorandom position of the remaining list.  This models the
deterministic permutation `train_test_split(..., random_state=42)`
draws from its seeded generator. -/
def shuffleAux (s : Nat) (l : List Nat) : List Nat :=
  if hl : l = [] then []
  else
    have hpos : 0 < l.length := List.length_pos.mpr hl
    let k := s % l.length
    have hk : k < l.length := Nat.mod_lt _ hpos
    let v := l.get ⟨k, hk⟩
    have : (l.erase v).length < l.length := by
      rw [List.length_erase_of_mem (l.get_mem _ _)]
      omega
    v :: shuffleAux (lcgNext s) (l.erase v)
termination_by l.length

/-- The seeded permutation of the row indices `0, ..., n-1`. -/
def permIdx (seed n : Nat) : List Nat := shuffleAux seed (List.range n)

/-- `n_test = ceil(0.2 * n)`, the sklearn test-set size for
`test_size=0.2`, computed in exact arithmetic as `⌈n/5⌉`. -/
def nTest (n : Nat) : Nat := (n + 4) / 5

/-- The test-set row indices: the first `nTest n` shuffled indices. -/
def testIdx (seed n : Nat) : List Nat := (permIdx seed n).take (nTest n)

/-- The training-set row indices: the remaining shuffled indices. -/
def trainIdx (seed n : Nat) : List Nat := (permIdx seed n).drop (nTest n)

/-- Select the rows of a table at the given list of indices. -/
def selectRows {α : Type} (rows : List α) (idxs : List Nat) : List α :=
  idxs.filterMap (fun i => rows[i]?)

/-- `X_train, X_test, y_train, y_test = train_test_split(X, y,
test_size=0.2, random_state=seed)`: one seeded permutation partitions
the rows of `X` and `y` consistently. -/
def splitData (seed : Nat) (X : List XRow) (y : List ℚ) :
    List XRow × List XRow × List ℚ × List ℚ :=
  let n := X.length
  (selectRows X (trainIdx seed n), selectRows X (testIdx seed n),
   selectRows y (trainIdx seed n), selectRows y (testIdx seed n))

/-- The whole pipeline up to and including the split, with the fixed
seed 42 of the source. -/
def pipelineSplit (parse : String → Option Nat) (g h : List RawRow) :
    List XRow × List XRow × List ℚ × List ℚ :=
  let merged := mergedData parse g h
  splitData 42 (fillnaX (featureX merged)) (targetY merged)

/-- `mean_squared_error(y_test, y_pred)`. -/
def mse (actual pred : List ℚ) : ℚ :=
  (actual.zipWith (fun a b => (a - b) ^ 2) pred).sum / (actual.length : ℚ)

/-- The test MSE of one trained model.  `fit` abstracts the estimator:
it turns the training rows and targets into a prediction function
(`model.fit(X_train, y_train)` followed by `model.predict`). -/
def pipelineMse (parse : String → Option Nat)
    (fit : List XRow → List ℚ → (List XRow → List ℚ))
    (g h : List RawRow) : ℚ :=
  match pipelineSplit parse g h with
  | (xtr, xte, ytr, yte) => mse yte (fit xtr ytr xte)

/-! ### Properties of the seeded shuffle -/

/-- The seeded shuffle permutes its input list. -/
theorem shuffleAux_perm (s : Nat) (l : List Nat) : (shuffleAux s l).Perm l := by
  induction s, l using shuffleAux.induct with
  | case1 s => simp [shuffleAux]
  | case2 s l hl hpos k hk v hdec ih =>
    rw [shuffleAux]
    simp only [dif_neg hl]
    exact (ih.cons _).trans (List.perm_cons_erase (l.get_mem _ _)).symm

/-- The seeded index permutation is a permutation of `0, ..., n-1`. -/
theorem permIdx_perm (seed n : Nat) : (permIdx seed n).Perm (List.range n) :=
  shuffleAux_perm _ _

theorem permIdx_length (seed n : Nat) : (permIdx seed n).length = n := by
  rw [(permIdx_perm seed n).length_eq, List.length_range]

theorem permIdx_nodup (seed n : Nat) : (permIdx seed n).Nodup :=
  ((permIdx_perm seed n).nodup_iff).mpr (List.nodup_range n)

theorem mem_permIdx_lt (seed n i : Nat) (h : i ∈ permIdx seed n) : i < n :=
  List.mem_range.mp ((permIdx_perm seed n).mem_iff.mp h)

theorem nTest_le (n : Nat) : nTest n ≤ n := by unfold nTest; omega

/-- Selecting rows at a list of in-range indices yields one row per
index. -/
theorem selectRows_length {α : Type} (rows : List α) (idxs : List Nat)
    (h : ∀ i ∈ idxs, i < rows.length) :
    (selectRows rows idxs).length = idxs.length := by
  induction idxs with
  | nil => rfl
  | cons a as ih =>
    have ha := h a (List.mem_cons_self a as)
    have hv : rows[a]? = some (rows.get ⟨a, ha⟩) := by
      rw [List.getElem?_eq_getElem ha]; rfl
    simp [selectRows, List.filterMap_cons, hv] at ih ⊢
    exact ih fun i hi => h i (List.mem_cons_of_mem _ hi)

theorem testIdx_length (seed n : Nat) : (testIdx seed n).length = nTest n := by
  rw [testIdx, List.length_take, permIdx_length]
  exact Nat.min_eq_left (nTest_le n)

theorem trainIdx_length (seed n : Nat) : (trainIdx seed n).length = n - nTest n := by
  rw [trainIdx, List.length_drop, permIdx_length]

/-- No index is in both the test and the training index lists. -/
theorem test_train_disjoint (seed n : Nat) :
    (testIdx seed n) ∩ (trainIdx seed n) = [] :=
  List.inter_eq_nil_iff_disjoint.mpr
    (List.disjoint_take_drop (permIdx_nodup seed n) (le_refl _))

/-- Together the test and training index lists are exactly the row
indices `0, ..., n-1`. -/
theorem test_train_union (seed n : Nat) :
    (testIdx seed n ++ trainIdx seed n).Perm (List.range n) := by
  rw [testIdx, trainIdx, List.take_append_drop]
  exact permIdx_perm seed n

/-! ### Column-wise view of the imputation -/

/-- Filling a cell with an existing mean always yields a value. -/
theorem fillCell_isSome (m : Option ℚ) (x : Option ℚ) (hm : m.isSome = true) :
    (fillCell m x).isSome = true := by
  cases x with
  | some v => rfl
  | none => exact hm

/-- A non-null cell is never changed by `fillna`. -/
theorem fillCell_some (m : Option ℚ) (v : ℚ) : fillCell m (some v) = some v := rfl

theorem fillnaX_col_weight (X : List XRow) :
    (fillnaX X).map (·.weight_kg) = fillnaCol (X.map (·.weight_kg)) := by
  simp only [fillnaX, fillnaCol, List.map_map]; rfl

theorem fillnaX_col_cost (X : List XRow) :
    (fillnaX X).map (·.cost_per_kg) = fillnaCol (X.map (·.cost_per_kg)) := by
  simp only [fillnaX, fillnaCol, List.map_map]; rfl

theorem fillnaX_col_disposal (X : List XRow) :
    (fillnaX X).map (·.disposal_method) = fillnaCol (X.map (·.disposal_method)) := by
  simp only [fillnaX, fillnaCol, List.map_map]; rfl

theorem fillnaX_col_recyclable (X : List XRow) :
    (fillnaX X).map (·.recyclable) = fillnaCol (X.map (·.recyclable)) := by
  simp only [fillnaX, fillnaCol, List.map_map]; rfl

theorem fillnaX_col_hazardous (X : List XRow) :
    (fillnaX X).map (·.hazardous) = fillnaCol (X.map (·.hazardous)) := by
  simp only [fillnaX, fillnaCol, List.map_map]; rfl

theorem fillnaX_col_storage (X : List XRow) :
    (fillnaX X).map (·.storage_duration_days) =
      fillnaCol (X.map (·.storage_duration_days)) := by
  simp only [fillnaX, fillnaCol, List.map_map]; rfl

/-- When a column has at least one non-null cell, `fillna` with the
column mean leaves no null in the column. -/
theorem fillnaCol_all_isSome (col : List (Option ℚ))
    (hc : col.filterMap id ≠ []) :
    ((fillnaCol col).all Option.isSome) = true := by
  have hm : (colMean col).isSome = true := by
    simp only [colMean]; rw [if_neg hc]; rfl
  rw [List.all_eq_true]
  intro x hx
  obtain ⟨a, _, rfl⟩ := List.mem_map.mp hx
  exact fillCell_isSome _ a hm

/-! ### Concrete fixtures used by counterexamples and witnesses -/

/-- A concrete date parser: the string `"bad"` is unparseable, any
other string parses to its length. -/
def pEx : String → Option Nat := fun s => if s = "bad" then none else some s.length

/-- A fully populated general-waste row. -/
def rowG1 : RawRow :=
  { generated_date := some "2024-01-01", weight_kg := some 1, cost_per_kg := some 2,
    disposal_method := some "burn", cat2 := some "yes",
    storage_duration_days := some 3, predicted_waste_next_day := some 5 }

/-- A second general-waste row, with a missing `weight_kg` cell. -/
def rowG2 : RawRow :=
  { generated_date := some "2024-01-02", weight_kg := none, cost_per_kg := some 4,
    disposal_method := some "compost", cat2 := some "no",
    storage_duration_days := some 1, predicted_waste_next_day := some 6 }

/-- A fully populated hazardous-waste row. -/
def rowH1 : RawRow :=
  { generated_date := some "2024-01-03", weight_kg := some 7, cost_per_kg := some 8,
    disposal_method := some "compost", cat2 := some "high",
    storage_duration_days := some 2, predicted_waste_next_day := some 9 }

/-- A row whose `generated_date` does not parse under `pEx`. -/
def rowBad : RawRow :=
  { generated_date := some "bad", weight_kg := some 1, cost_per_kg := some 1,
    disposal_method := some "burn", cat2 := some "yes",
    storage_duration_days := some 1, predicted_waste_next_day := some 1 }

/-- A general-waste row with a missing `disposal_method` cell (and a
valid date and target). -/
def rowGnoDM : RawRow :=
  { generated_date := some "2024-01-04", weight_kg := some 2, cost_per_kg := some 2,
    disposal_method := none, cat2 := some "yes",
    storage_duration_days := some 1, predicted_waste_next_day := some 4 }

/-- A general-waste row with a missing `recyclable` (`cat2`) cell. -/
def rowGnoR : RawRow :=
  { generated_date := some "2024-01-05", weight_kg := some 3, cost_per_kg := some 3,
    disposal_method := some "burn", cat2 := none,
    storage_duration_days := some 2, predicted_waste_next_day := some 7 }

/-- A hazardous-waste row with a missing `disposal_method` cell. -/
def rowHnoDM : RawRow :=
  { generated_date := some "2024-01-06", weight_kg := some 4, cost_per_kg := some 4,
    disposal_method := none, cat2 := some "low",
    storage_duration_days := some 1, predicted_waste_next_day := some 8 }

/-- A hazardous-waste row with a missing `hazardous` (`cat2`) cell. -/
def rowHnoH : RawRow :=
  { generated_date := some "2024-01-07", weight_kg := some 5, cost_per_kg := some 5,
    disposal_method := some "burn", cat2 := none,
    storage_duration_days := some 4, predicted_waste_next_day := some 10 }

/-- A concrete estimator: predict the constant 0 for every test row. -/
def fitEx : List XRow → List ℚ → (List XRow → List ℚ) :=
  fun _ _ xs => xs.map (fun _ => 0)

/-! ### Theorems about the claims -/

/-- **C5.** For every input dataset, after the cleaning step no
remaining row has a null (missing or unparseable) `generated_date` or a
null `predicted_waste_next_day` value: every row surviving the cleaning
filter has a non-null parsed date and a non-null target. -/
theorem C5_clean_no_null_date_target (parse : String → Option Nat)
    (rows : List RawRow) (r : RawRow) (hr : r ∈ keptRows parse rows) :
    (parsedDate parse r).isSome = true ∧
    r.predicted_waste_next_day.isSome = true := by
  simp only [keptRows, List.mem_filter, Bool.and_eq_true] at hr
  exact hr.2

/-- Witness for C5 at a concrete dataset. -/
theorem C5_clean_no_null_date_target_witness :
    rowG1 ∈ keptRows pEx [rowG1, rowBad] ∧
    ((parsedDate pEx rowG1).isSome = true ∧
      rowG1.predicted_waste_next_day.isSome = true) :=
  ⟨by decide, C5_clean_no_null_date_target pEx [rowG1, rowBad] rowG1 (by decide)⟩

/-- **C6.** Determinism: the pipeline is a pure function of the input
tables (all randomness is the permutation drawn from the fixed seed 42,
and every estimator `fit` is a function), so two runs on equal inputs
produce an identical train/test partition and identical MSE values. -/
theorem C6_fixed_seed_determinism (parse : String → Option Nat)
    (fit : List XRow → List ℚ → (List XRow → List ℚ))
    (g₁ h₁ g₂ h₂ : List RawRow) (hg : g₁ = g₂) (hh : h₁ = h₂) :
    pipelineSplit parse g₁ h₁ = pipelineSplit parse g₂ h₂ ∧
    pipelineMse parse fit g₁ h₁ = pipelineMse parse fit g₂ h₂ := by
  subst hg; subst hh; exact ⟨rfl, rfl⟩

/-- Witness for C6 at concrete inputs. -/
theorem C6_fixed_seed_determinism_witness :
    ([rowG1, rowG2] : List RawRow) = [rowG1, rowG2] ∧
    (pipelineSplit pEx [rowG1, rowG2] [rowH1] =
        pipelineSplit pEx [rowG1, rowG2] [rowH1] ∧
      pipelineMse pEx fitEx [rowG1, rowG2] [rowH1] =
        pipelineMse pEx fitEx [rowG1, rowG2] [rowH1]) :=
  ⟨rfl, C6_fixed_seed_determinism pEx fitEx [rowG1, rowG2] [rowH1]
    [rowG1, rowG2] [rowH1] rfl rfl⟩

/-- **C9.** An unparseable `generated_date` never aborts the run: the
parse maps it to a null marker and the only effect on the cleaned
output is that the affected row is dropped — cleaning the table with
the bad row gives exactly the cleaning of the table without it, all
other rows processed unchanged. -/
theorem C9_unparseable_date_only_drops_row (parse : String → Option Nat)
    (xs ys : List RawRow) (r : RawRow) (hr : parsedDate parse r = none) :
    cleanDataset parse (xs ++ r :: ys) = cleanDataset parse (xs ++ ys) := by
  have hk : keptRows parse (xs ++ r :: ys) = keptRows parse (xs ++ ys) := by
    simp [keptRows, List.filter_append, List.filter_cons, hr]
  simp only [cleanDataset, hk]

/-- Witness for C9 at a concrete dataset with one unparseable date. -/
theorem C9_unparseable_date_only_drops_row_witness :
    parsedDate pEx rowBad = none ∧
    cleanDataset pEx ([rowG1] ++ rowBad :: [rowG2]) =
      cleanDataset pEx ([rowG1] ++ [rowG2]) :=
  ⟨by decide, C9_unparseable_date_only_drops_row pEx [rowG1] [rowG2] rowBad (by decide)⟩

/-- **C3.** The merged table is the cleaned general table followed by
the cleaned hazardous table: its row count is the sum of the two
cleaned row counts, and (with the dense 0-based positions of the list)
position `i` holds cleaned general row `i` and position
`|general| + j` holds cleaned hazardous row `j`. -/
theorem C3_merge_counts_and_order (parse : String → Option Nat)
    (g h : List RawRow) :
    (mergedData parse g h).length =
      (cleanDataset parse g).length + (cleanDataset parse h).length ∧
    (∀ i, i < (cleanDataset parse g).length →
      (mergedData parse g h)[i]? = ((cleanDataset parse g)[i]?).map mrowG) ∧
    (∀ j, j < (cleanDataset parse h).length →
      (mergedData parse g h)[(cleanDataset parse g).length + j]? =
        ((cleanDataset parse h)[j]?).map mrowH) := by
  refine ⟨by simp [mergedData], fun i hi => ?_, fun j hj => ?_⟩
  · rw [mergedData, List.getElem?_append]
    simp [hi, List.getElem?_map]
  · rw [mergedData, List.getElem?_append_right (by simp)]
    simp [List.getElem?_map]

/-- **C1 (counterexample).** The claim "after imputation the feature
matrix contains no null in the six selected columns" fails as stated:
when the cleaned hazardous table is empty, the merged table is nonempty
(one general row) yet its `hazardous` column is all-null, its mean does
not exist, and `fillna` leaves the null in place. -/
theorem C1_counterexample :
    (mergedData pEx [rowG1] []).length = 1 ∧
    ((fillnaX (featureX (mergedData pEx [rowG1] []))).map (·.hazardous)) =
      [none] :=
  ⟨by decide, by decide⟩

/-- **C1 (amended).** Provided each of the six selected feature columns
of the merged table has at least one non-null cell (so its mean
exists), the feature matrix after imputation contains no null value in
any of the six columns. -/
theorem C1_imputed_matrix_no_nulls (parse : String → Option Nat)
    (g h : List RawRow)
    (hW : ((featureX (mergedData parse g h)).map (·.weight_kg)).filterMap id ≠ [])
    (hC : ((featureX (mergedData parse g h)).map (·.cost_per_kg)).filterMap id ≠ [])
    (hD : ((featureX (mergedData parse g h)).map (·.disposal_method)).filterMap id ≠ [])
    (hR : ((featureX (mergedData parse g h)).map (·.recyclable)).filterMap id ≠ [])
    (hH : ((featureX (mergedData parse g h)).map (·.hazardous)).filterMap id ≠ [])
    (hS : ((featureX (mergedData parse g h)).map (·.storage_duration_days)).filterMap id ≠ []) :
    ((fillnaX (featureX (mergedData parse g h))).map (·.weight_kg)).all Option.isSome = true ∧
    ((fillnaX (featureX (mergedData parse g h))).map (·.cost_per_kg)).all Option.isSome = true ∧
    ((fillnaX (featureX (mergedData parse g h))).map (·.disposal_method)).all Option.isSome = true ∧
    ((fillnaX (featureX (mergedData parse g h))).map (·.recyclable)).all Option.isSome = true ∧
    ((fillnaX (featureX (mergedData parse g h))).map (·.hazardous)).all Option.isSome = true ∧
    ((fillnaX (featureX (mergedData parse g h))).map (·.storage_duration_days)).all Option.isSome = true := by
  refine ⟨?_, ?_, ?_, ?_, ?_, ?_⟩
  · rw [fillnaX_col_weight]; exact fillnaCol_all_isSome _ hW
  · rw [fillnaX_col_cost]; exact fillnaCol_all_isSome _ hC
  · rw [fillnaX_col_disposal]; exact fillnaCol_all_isSome _ hD
  · rw [fillnaX_col_recyclable]; exact fillnaCol_all_isSome _ hR
  · rw [fillnaX_col_hazardous]; exact fillnaCol_all_isSome _ hH
  · rw [fillnaX_col_storage]; exact fillnaCol_all_isSome _ hS

/-- Witness for the amended C1 at concrete datasets in which every
feature column has a non-null cell. -/
theorem C1_imputed_matrix_no_nulls_witness :
    (((featureX (mergedData pEx [rowG1, rowG2] [rowH1])).map (·.weight_kg)).filterMap id ≠ []) ∧
    ((fillnaX (featureX (mergedData pEx [rowG1, rowG2] [rowH1]))).map (·.weight_kg)).all Option.isSome = true ∧
    ((fillnaX (featureX (mergedData pEx [rowG1, rowG2] [rowH1]))).map (·.cost_per_kg)).all Option.isSome = true ∧
    ((fillnaX (featureX (mergedData pEx [rowG1, rowG2] [rowH1]))).map (·.disposal_method)).all Option.isSome = true ∧
    ((fillnaX (featureX (mergedData pEx [rowG1, rowG2] [rowH1]))).map (·.recyclable)).all Option.isSome = true ∧
    ((fillnaX (featureX (mergedData pEx [rowG1, rowG2] [rowH1]))).map (·.hazardous)).all Option.isSome = true ∧
    ((fillnaX (featureX (mergedData pEx [rowG1, rowG2] [rowH1]))).map (·.storage_duration_days)).all Option.isSome = true :=
  ⟨by decide,
    C1_imputed_matrix_no_nulls pEx [rowG1, rowG2] [rowH1]
      (by decide) (by decide) (by decide) (by decide) (by decide) (by decide)⟩

/-- **C4.** The train/test split with `test_size=0.2` partitions the
rows: `|train| + |test|` is the full row count, the test and training
index lists share no row index, together they are exactly the row
indices `0, ..., n-1`, and the test size is `⌈n/5⌉`, i.e. within 4/5 of
a row of `0.2 × n` (`n ≤ 5·|test| ≤ n + 4`). -/
theorem C4_train_test_split (X : List XRow) (y : List ℚ) :
    (splitData 42 X y).1.length + (splitData 42 X y).2.1.length = X.length ∧
    (testIdx 42 X.length) ∩ (trainIdx 42 X.length) = [] ∧
    (testIdx 42 X.length ++ trainIdx 42 X.length).Perm (List.range X.length) ∧
    (splitData 42 X y).2.1.length = nTest X.length ∧
    X.length ≤ 5 * nTest X.length ∧ 5 * nTest X.length ≤ X.length + 4 := by
  have htr : ∀ i ∈ trainIdx 42 X.length, i < X.length := fun i hi =>
    mem_permIdx_lt 42 X.length i (List.drop_subset _ _ hi)
  have hte : ∀ i ∈ testIdx 42 X.length, i < X.length := fun i hi =>
    mem_permIdx_lt 42 X.length i (List.take_subset _ _ hi)
  have h1 : (splitData 42 X y).1.length = X.length - nTest X.length := by
    simp only [splitData]
    rw [selectRows_length X _ htr, trainIdx_length]
  have h2 : (splitData 42 X y).2.1.length = nTest X.length := by
    simp only [splitData]
    rw [selectRows_length X _ hte, testIdx_length]
  refine ⟨?_, test_train_disjoint _ _, test_train_union _ _, h2, ?_, ?_⟩
  · rw [h1, h2]; have := nTest_le X.length; omega
  · unfold nTest; omega
  · unfold nTest; omega

/-- Witness for C3 at concrete datasets: the merged table's position 0
is cleaned general row 0. -/
theorem C3_merge_counts_and_order_witness :
    0 < (cleanDataset pEx [rowG1, rowG2]).length ∧
    (mergedData pEx [rowG1, rowG2] [rowH1])[0]? =
      ((cleanDataset pEx [rowG1, rowG2])[0]?).map mrowG :=
  ⟨by decide, (C3_merge_counts_and_order pEx [rowG1, rowG2] [rowH1]).2.1 0 (by decide)⟩

/-- **C2 (counterexample).** The claim "only `hazardous` is referenced
as a feature while `recyclable` is not used as a model feature" is
false on the code: `recyclable` is literally in the feature list. -/
theorem C2_counterexample : "recyclable" ∈ features := by decide

/-- **C2 (amended).** The model's feature list references both encoded
categorical columns: `recyclable` and `hazardous` are both in
`features`, and the `recyclable` codes produced by the cleaner are
carried into the feature matrix column for every merged table. -/
theorem C2_feature_list_uses_both_categoricals :
    "recyclable" ∈ features ∧ "hazardous" ∈ features ∧
    ∀ (M : List MergedRow),
      (featureX M).map (·.recyclable) =
        M.map (fun m => m.recyclable.map (fun i => (i : ℚ))) := by
  refine ⟨by decide, by decide, fun M => ?_⟩
  rw [featureX, List.map_map]; rfl

/-- **C7.** Imputation replaces each null cell of a feature column with
the mean of that column's non-null cells (the non-null cells being all
rows of the merged matrix, since `fillnaX` computes its means over the
whole `X` it is applied to, between merge and split); in particular
`[1.0, NaN, 3.0]` imputes to `[1.0, 2.0, 3.0]`. -/
theorem C7_imputation_is_column_mean (col : List (Option ℚ))
    (hc : col.filterMap id ≠ []) :
    fillnaCol col =
      col.map (fun x => some (x.getD
        ((col.filterMap id).sum / ((col.filterMap id).length : ℚ)))) ∧
    (∀ X : List XRow,
      (fillnaX X).map (·.weight_kg) = fillnaCol (X.map (·.weight_kg)) ∧
      (fillnaX X).map (·.cost_per_kg) = fillnaCol (X.map (·.cost_per_kg)) ∧
      (fillnaX X).map (·.disposal_method) = fillnaCol (X.map (·.disposal_method)) ∧
      (fillnaX X).map (·.recyclable) = fillnaCol (X.map (·.recyclable)) ∧
      (fillnaX X).map (·.hazardous) = fillnaCol (X.map (·.hazardous)) ∧
      (fillnaX X).map (·.storage_duration_days) =
        fillnaCol (X.map (·.storage_duration_days))) ∧
    fillnaCol [some 1, none, some 3] = [some 1, some 2, some 3] := by
  refine ⟨?_,
    fun X => ⟨fillnaX_col_weight X, fillnaX_col_cost X, fillnaX_col_disposal X,
      fillnaX_col_recyclable X, fillnaX_col_hazardous X, fillnaX_col_storage X⟩,
    ?_⟩
  · have hm : colMean col =
        some ((col.filterMap id).sum / ((col.filterMap id).length : ℚ)) := by
      simp only [colMean]; rw [if_neg hc]
    rw [fillnaCol, hm]
    apply List.map_congr_left
    intro a _
    cases a <;> simp [fillCell]
  · simp [fillnaCol, colMean, fillCell]
    norm_num

/-- Witness for C7 at the spec's concrete example column. -/
theorem C7_imputation_is_column_mean_witness :
    ([some (1 : ℚ), none, some 3].filterMap id ≠ []) ∧
    fillnaCol [some 1, none, some 3] = [some 1, some 2, some 3] :=
  ⟨by decide, (C7_imputation_is_column_mean [some 1, none, some 3] (by decide)).2.2⟩

/-- **C8.** Categorical codes are derived independently per dataset:
with the general table's `disposal_method` values
`["burn", "compost"]` and the hazardous table's `["compost"]`, the same
label `"compost"` receives code 1 in the cleaned general table and
code 0 in the cleaned hazardous table. -/
theorem C8_per_dataset_independent_encoding :
    rowG2.disposal_method = some "compost" ∧
    rowH1.disposal_method = some "compost" ∧
    ((cleanDataset pEx [rowG1, rowG2]).map (·.disposal_method)) = [0, 1] ∧
    ((cleanDataset pEx [rowH1]).map (·.disposal_method)) = [0] := by
  refine ⟨rfl, rfl, by decide, by decide⟩

/-- **C10.** A missing value in any categorical column of its own
dataset (`disposal_method` or `recyclable` in the general table,
`disposal_method` or `hazardous` in the hazardous table) is encoded as
the integer code `-1`, not a null: the cleaner drops rows only for
null dates/targets (never for a null categorical), the encoded `-1` is
a non-null cell of the feature matrix, so mean imputation leaves it
untouched and `-1` flows into the imputed feature matrix — at the
row's merged position for each of the four column/table cases. -/
theorem C10_missing_categorical_becomes_minus_one
    (parse : String → Option Nat) (g h : List RawRow) :
    (∀ (i : Nat) (r : RawRow), (keptRows parse g)[i]? = some r → r.disposal_method = none →
      ((cleanDataset parse g)[i]?).map (·.disposal_method) = some (-1) ∧
      ((fillnaX (featureX (mergedData parse g h))).map (·.disposal_method))[i]? =
        some (some (-1 : ℚ))) ∧
    (∀ (i : Nat) (r : RawRow), (keptRows parse g)[i]? = some r → r.cat2 = none →
      ((cleanDataset parse g)[i]?).map (·.cat2) = some (-1) ∧
      ((fillnaX (featureX (mergedData parse g h))).map (·.recyclable))[i]? =
        some (some (-1 : ℚ))) ∧
    (∀ (j : Nat) (r : RawRow), (keptRows parse h)[j]? = some r → r.disposal_method = none →
      ((cleanDataset parse h)[j]?).map (·.disposal_method) = some (-1) ∧
      ((fillnaX (featureX (mergedData parse g h))).map
        (·.disposal_method))[(cleanDataset parse g).length + j]? =
        some (some (-1 : ℚ))) ∧
    (∀ (j : Nat) (r : RawRow), (keptRows parse h)[j]? = some r → r.cat2 = none →
      ((cleanDataset parse h)[j]?).map (·.cat2) = some (-1) ∧
      ((fillnaX (featureX (mergedData parse g h))).map
        (·.hazardous))[(cleanDataset parse g).length + j]? =
        some (some (-1 : ℚ))) ∧
    (∀ (rows : List RawRow), ∀ r2 ∈ rows, (parsedDate parse r2).isSome = true →
      r2.predicted_waste_next_day.isSome = true → r2 ∈ keptRows parse rows) := by
  have hcrowG : ∀ (i : Nat) (r : RawRow), (keptRows parse g)[i]? = some r →
      (cleanDataset parse g)[i]? = some
        { generated_date := (parsedDate parse r).getD 0
          weight_kg := r.weight_kg
          cost_per_kg := r.cost_per_kg
          disposal_method :=
            catCode ((keptRows parse g).map (·.disposal_method)) r.disposal_method
          cat2 := catCode ((keptRows parse g).map (·.cat2)) r.cat2
          storage_duration_days := r.storage_duration_days
          predicted_waste_next_day := r.predicted_waste_next_day.getD 0 } := by
    intro i r hk
    simp only [cleanDataset, List.getElem?_map, hk]
    rfl
  have hcrowH : ∀ (j : Nat) (r : RawRow), (keptRows parse h)[j]? = some r →
      (cleanDataset parse h)[j]? = some
        { generated_date := (parsedDate parse r).getD 0
          weight_kg := r.weight_kg
          cost_per_kg := r.cost_per_kg
          disposal_method :=
            catCode ((keptRows parse h).map (·.disposal_method)) r.disposal_method
          cat2 := catCode ((keptRows parse h).map (·.cat2)) r.cat2
          storage_duration_days := r.storage_duration_days
          predicted_waste_next_day := r.predicted_waste_next_day.getD 0 } := by
    intro j r hk
    simp only [cleanDataset, List.getElem?_map, hk]
    rfl
  have hlenG : ∀ (i : Nat) (r : RawRow), (keptRows parse g)[i]? = some r →
      i < ((cleanDataset parse g).map mrowG).length := by
    intro i r hk
    have hi := (List.getElem?_eq_some.mp hk).1
    simp only [List.length_map, cleanDataset]
    simpa using hi
  have hnotlt : ∀ (j : Nat),
      ¬((cleanDataset parse g).length + j <
        ((cleanDataset parse g).map mrowG).length) := by
    intro j
    simp only [List.length_map]
    omega
  have hidx : ∀ (j : Nat),
      (cleanDataset parse g).length + j -
        ((cleanDataset parse g).map mrowG).length = j := by
    intro j
    simp only [List.length_map]
    omega
  refine ⟨fun i r hk hdm => ⟨?_, ?_⟩, fun i r hk hc2 => ⟨?_, ?_⟩,
    fun j r hk hdm => ⟨?_, ?_⟩, fun j r hk hc2 => ⟨?_, ?_⟩, ?_⟩
  · rw [hcrowG i r hk]
    simp [hdm, catCode]
  · rw [fillnaX_col_disposal, fillnaCol, List.getElem?_map, List.getElem?_map,
      featureX, List.getElem?_map, mergedData, List.getElem?_append,
      if_pos (hlenG i r hk), List.getElem?_map, hcrowG i r hk]
    simp [mrowG, toXRow, hdm, catCode, fillCell]
  · rw [hcrowG i r hk]
    simp [hc2, catCode]
  · rw [fillnaX_col_recyclable, fillnaCol, List.getElem?_map, List.getElem?_map,
      featureX, List.getElem?_map, mergedData, List.getElem?_append,
      if_pos (hlenG i r hk), List.getElem?_map, hcrowG i r hk]
    simp [mrowG, toXRow, hc2, catCode, fillCell]
  · rw [hcrowH j r hk]
    simp [hdm, catCode]
  · rw [fillnaX_col_disposal, fillnaCol, List.getElem?_map, List.getElem?_map,
      featureX, List.getElem?_map, mergedData, List.getElem?_append,
      if_neg (hnotlt j), hidx j, List.getElem?_map, hcrowH j r hk]
    simp [mrowH, toXRow, hdm, catCode, fillCell]
  · rw [hcrowH j r hk]
    simp [hc2, catCode]
  · rw [fillnaX_col_hazardous, fillnaCol, List.getElem?_map, List.getElem?_map,
      featureX, List.getElem?_map, mergedData, List.getElem?_append,
      if_neg (hnotlt j), hidx j, List.getElem?_map, hcrowH j r hk]
    simp [mrowH, toXRow, hc2, catCode, fillCell]
  · intro rows r2 hr2 hd ht
    simp [keptRows, List.mem_filter, hr2, hd, ht]

/-- Witness for C10: concrete rows exercising all four cases — a
missing `disposal_method` and a missing `recyclable` in the general
table, a missing `disposal_method` and a missing `hazardous` in the
hazardous table — each reaching the imputed matrix as `-1`. -/
theorem C10_missing_categorical_becomes_minus_one_witness :
    ((keptRows pEx [rowGnoDM, rowGnoR])[0]? = some rowGnoDM) ∧
    ((keptRows pEx [rowGnoDM, rowGnoR])[1]? = some rowGnoR) ∧
    ((keptRows pEx [rowHnoDM, rowHnoH])[0]? = some rowHnoDM) ∧
    ((keptRows pEx [rowHnoDM, rowHnoH])[1]? = some rowHnoH) ∧
    ((fillnaX (featureX (mergedData pEx [rowGnoDM, rowGnoR] [rowHnoDM, rowHnoH]))).map
      (·.disposal_method))[0]? = some (some (-1 : ℚ)) ∧
    ((fillnaX (featureX (mergedData pEx [rowGnoDM, rowGnoR] [rowHnoDM, rowHnoH]))).map
      (·.recyclable))[1]? = some (some (-1 : ℚ)) ∧
    ((fillnaX (featureX (mergedData pEx [rowGnoDM, rowGnoR] [rowHnoDM, rowHnoH]))).map
      (·.disposal_method))[(cleanDataset pEx [rowGnoDM, rowGnoR]).length + 0]? =
      some (some (-1 : ℚ)) ∧
    ((fillnaX (featureX (mergedData pEx [rowGnoDM, rowGnoR] [rowHnoDM, rowHnoH]))).map
      (·.hazardous))[(cleanDataset pEx [rowGnoDM, rowGnoR]).length + 1]? =
      some (some (-1 : ℚ)) :=
  ⟨by decide, by decide, by decide, by decide,
    ((C10_missing_categorical_becomes_minus_one pEx [rowGnoDM, rowGnoR]
      [rowHnoDM, rowHnoH]).1 0 rowGnoDM (by decide) rfl).2,
    ((C10_missing_categorical_becomes_minus_one pEx [rowGnoDM, rowGnoR]
      [rowHnoDM, rowHnoH]).2.1 1 rowGnoR (by decide) rfl).2,
    ((C10_missing_categorical_becomes_minus_one pEx [rowGnoDM, rowGnoR]
      [rowHnoDM, rowHnoH]).2.2.1 0 rowHnoDM (by decide) rfl).2,
    ((C10_missing_categorical_becomes_minus_one pEx [rowGnoDM, rowGnoR]
      [rowHnoDM, rowHnoH]).2.2.2.1 1 rowHnoH (by decide) rfl).2⟩

end WMS
